import Mathlib

/-!
Shallow embedding of app.py from the Chatbot-Brainstorming repository.
The program fans one question out to several chatbots, has every live bot
score every other live bot, asks each bot a clarification question built
from its worst-rated peer reply, rescores the clarified answers, and
returns the answer with the highest average score.

Network interaction is modelled by explicit outcome values passed in as
parameters (a world function per call site).  Python exceptions that a
function lets escape are modelled with Except PyError; functions that
absorb their failures are total.
-/

/-- One chatbot reply: the program only ever consumes choices[0].text of
the reply JSON, so a reply is modelled by that text. -/
structure Answer where
  text : String
  deriving DecidableEq, Repr

/-- Python exceptions that can escape a function of the program:
ValueError from min or max over an empty sequence and from the
json.JSONDecodeError raised on a malformed JSON body, ZeroDivisionError
from averaging an empty score row, KeyError from a missing dictionary
key, TypeError from subscripting a captured exception object, and
asyncio.TimeoutError from a session timeout. -/
inductive PyError where
  | valueError
  | zeroDivisionError
  | keyError
  | typeError
  | timeoutError
  deriving DecidableEq, Repr

/-- Outcome of the HTTP interaction inside send_to_chatbot: a successful
parsed JSON reply; an aiohttp.ClientError (connection and transport
errors, a non-success status via raise_for_status, a reply with a wrong
content type), the only class its try/except catches; a reply whose JSON
body is malformed, which makes response.json() raise
json.JSONDecodeError, a ValueError and not an aiohttp.ClientError; or a
session timeout, which raises asyncio.TimeoutError, likewise not an
aiohttp.ClientError. -/
inductive SendOutcome where
  | ok (a : Answer)
  | clientError
  | badJsonBody
  | timeout
  deriving DecidableEq, Repr

/-- send_to_chatbot, app.py lines 13-37: returns the reply on success and
the sentinel answer on a caught aiohttp.ClientError, which is only
logged; a malformed JSON body or a timeout is not caught, so that
exception escapes to the caller. -/
def send_to_chatbot : SendOutcome → Except PyError Answer
  | .ok a => .ok a
  | .clientError => .ok ⟨"Error processing request."⟩
  | .badJsonBody => .error .valueError
  | .timeout => .error .timeoutError

/-- Outcome of one pool task in get_responses_from_chatbots: either the
HTTP interaction of send_to_chatbot ran with outcome o, or the task
raised some other exception apart from it, such as the KeyError of the
API_KEYS lookup; asyncio.gather with return_exceptions=True captures
every escaping exception instead of cancelling the siblings. -/
inductive RawOutcome where
  | completed (o : SendOutcome)
  | taskExc
  deriving DecidableEq, Repr

/-- An entry of the responses dictionary: a reply dict, or the captured
exception object of a failed task. -/
inductive TaskResult where
  | answer (a : Answer)
  | exc
  deriving DecidableEq, Repr

/-- How gather records one awaited result: the returned answer, or the
captured exception object. -/
def recordTask : Except PyError Answer → TaskResult
  | .ok a => .answer a
  | .error _ => .exc

/-- How gather records one pool task: the reply or sentinel answer from
send_to_chatbot, or a captured exception, including the uncaught
failures that escape send_to_chatbot itself. -/
def taskResult : RawOutcome → TaskResult
  | .completed o => recordTask (send_to_chatbot o)
  | .taskExc => .exc

/-- get_responses_from_chatbots, lines 39-49: one concurrent task per
configured bot, the gathered results zipped back with the bot names. -/
def get_responses_from_chatbots (apis : List String) (world : String → RawOutcome) :
    List (String × TaskResult) :=
  apis.map (fun b => (b, taskResult (world b)))

/-- A Python word character, for the word boundaries of the regex
\b[1-5]\b used on ASCII reply text. -/
def isWordChar (c : Char) : Bool := c.isAlphanum || c = '_'

/-- The character class [1-5]. -/
def isDigit15 (c : Char) : Bool := 49 ≤ c.toNat && c.toNat ≤ 53

/-- ASCII whitespace removed by str.strip. -/
def isPySpace (c : Char) : Bool :=
  c = ' ' || c = '\t' || c = '\n' || c = '\r' || c = '\x0b' || c = '\x0c'

/-- str.strip: drop leading and trailing whitespace. -/
def pyStrip (l : List Char) : List Char :=
  ((l.dropWhile isPySpace).reverse.dropWhile isPySpace).reverse

/-- Word boundary after the current character: end of text or a non-word
character next. -/
def boundaryAfter : List Char → Bool
  | [] => true
  | c :: _ => !isWordChar c

/-- re.search of \b[1-5]\b, returned as the numeric value of the first
character in [1-5] that has a word boundary on both sides; pw records
whether the previous character was a word character. -/
def findDigit15 : Bool → List Char → Option Nat
  | _, [] => none
  | pw, c :: rest =>
    if isDigit15 c && !pw && boundaryAfter rest then
      some (c.toNat - 48)
    else
      findDigit15 (isWordChar c) rest

/-- Outcome of the scoring HTTP call inside evaluate_response: err covers
the caught aiohttp.ClientError and ValueError cases; ok carries the
evaluator reply text choices[0].text. -/
inductive EvalOutcome where
  | err
  | ok (t : String)
  deriving DecidableEq, Repr

/-- evaluate_response, lines 51-78: strip the evaluator reply and take the
first digit matched by \b[1-5]\b; a failed call, or a reply with no match
(the AttributeError branch of re.search returning None), scores 3. -/
def evaluate_response : EvalOutcome → Nat
  | .err => 3
  | .ok t =>
    match findDigit15 false (pyStrip t.toList) with
    | some d => d
    | none => 3

/-- Whether a responses entry is a real reply rather than a captured
exception: the negation of the isinstance(response, Exception) test. -/
def isLive : TaskResult → Bool
  | .answer _ => true
  | .exc => false

/-- evaluate_responses, lines 80-95: a row for every key of responses in
dictionary order; an evaluator whose own result is a captured exception
keeps its initial empty row; entries exist exactly for distinct pairs of
live bots; w gives the outcome of each scoring call by evaluator and
subject. -/
def evaluate_responses (w : String → String → EvalOutcome)
    (responses : List (String × TaskResult)) :
    List (String × List (String × Nat)) :=
  responses.map (fun p =>
    (p.1, match p.2 with
      | .exc => []
      | .answer _ =>
        (responses.filter (fun q => p.1 != q.1 && isLive q.2)).map
          (fun q => (q.1, evaluate_response (w p.1 q.1)))))

/-- The first match of re.findall of the pattern ([^.!?]*\?): scan for the
next sentence terminator; a question mark closes a match that began right
after the previous terminator (or at the start).  acc holds the current
segment reversed. -/
def firstQuestionAux : List Char → List Char → Option (List Char)
  | _, [] => none
  | acc, c :: rest =>
    if c = '?' then some (acc.reverse ++ [c])
    else if c = '.' ∨ c = '!' then firstQuestionAux [] rest
    else firstQuestionAux (c :: acc) rest

/-- First question-like substring of a reply text. -/
def firstQuestion (s : String) : Option (List Char) :=
  firstQuestionAux [] s.toList

/-- generate_clarification_question, lines 97-112. -/
def generate_clarification_question (response : Answer) : String :=
  match firstQuestion response.text with
  | some q => "Can you clarify the following: " ++ ⟨q⟩
  | none => "Can you provide more details about: " ++ ⟨response.text.toList.take 100⟩

/-- min(score_dict, key=score_dict.get) walked over a nonempty association
list: keep the current best pair, replace it only on a strictly smaller
value, so the first key of the smallest value wins. -/
def pyMinGo (b : String) (v : Nat) : List (String × Nat) → String × Nat
  | [] => (b, v)
  | q :: rest => if q.2 < v then pyMinGo q.1 q.2 rest else pyMinGo b v rest

/-- min over dictionary keys by value; none models the ValueError on an
empty sequence. -/
def pyMin : List (String × Nat) → Option (String × Nat)
  | [] => none
  | q :: rest => some (pyMinGo q.1 q.2 rest)

/-- Subscripting a responses entry: a captured exception object is not
subscriptable, so responses[bot] raises TypeError when the entry is an
exception. -/
def getAnswer : TaskResult → Except PyError Answer
  | .answer a => .ok a
  | .exc => .error .typeError

/-- The clarification loop of interact_between_bots, lines 125-129: for
each bot of the score table in order, take the key of its smallest score
(ValueError on an empty row), build the clarification question from that
peer reply, and re-ask the evaluating bot itself; wc gives each re-ask
call outcome from the bot asked and the question sent.  Line 129 awaits
send_to_chatbot with no gather around it, so an uncaught failure of the
re-ask call (malformed JSON body, timeout) propagates out of the loop. -/
def clarifyStep (wc : String → String → SendOutcome)
    (responses : List (String × TaskResult)) :
    List (String × List (String × Nat)) → Except PyError (List (String × Answer))
  | [] => .ok []
  | (bot, row) :: rest =>
    match pyMin row with
    | none => .error .valueError
    | some pv =>
      match List.lookup pv.1 responses with
      | none => .error .keyError
      | some r =>
        match getAnswer r with
        | .error e => .error e
        | .ok a =>
          match send_to_chatbot (wc bot (generate_clarification_question a)) with
          | .error e => .error e
          | .ok ans =>
            match clarifyStep wc responses rest with
            | .error e => .error e
            | .ok cl => .ok ((bot, ans) :: cl)

/-- The dictionary comprehension of select_best_response, line 143: the
average of every row in order; an empty row raises ZeroDivisionError.
Averages use exact rational division, which agrees with Python float
division on these small integer sums for the comparisons made. -/
def avgScores : List (String × List (String × Nat)) → Except PyError (List (String × ℚ))
  | [] => .ok []
  | (b, row) :: rest =>
    if row.isEmpty then .error .zeroDivisionError
    else
      match avgScores rest with
      | .error e => .error e
      | .ok l => .ok ((b, ((row.map (fun q => (q.2 : ℚ))).sum / (row.length : ℚ))) :: l)

/-- max(avg_scores, key=avg_scores.get) walked over a nonempty association
list: replace the current best only on a strictly greater value, so the
first key of the greatest value wins. -/
def pyMaxGo (b : String) (v : ℚ) : List (String × ℚ) → String × ℚ
  | [] => (b, v)
  | q :: rest => if v < q.2 then pyMaxGo q.1 q.2 rest else pyMaxGo b v rest

/-- max over dictionary keys by value; none models the ValueError on an
empty sequence. -/
def pyMax : List (String × ℚ) → Option (String × ℚ)
  | [] => none
  | q :: rest => some (pyMaxGo q.1 q.2 rest)

/-- select_best_response, lines 135-145. -/
def select_best_response (clarifications : List (String × Answer))
    (scores : List (String × List (String × Nat))) : Except PyError Answer :=
  match avgScores scores with
  | .error e => .error e
  | .ok avg =>
    match pyMax avg with
    | none => .error .valueError
    | some bv =>
      match List.lookup bv.1 clarifications with
      | none => .error .keyError
      | some a => .ok a

/-- All network outcomes of one orchestration run: the initial answer
tasks, the first scoring round, the clarification re-asks (by bot asked
and question sent), and the second scoring round. -/
structure World where
  initial : String → RawOutcome
  eval1 : String → String → EvalOutcome
  reask : String → String → SendOutcome
  eval2 : String → String → EvalOutcome

/-- interact_between_bots, lines 114-133. -/
def interact_between_bots (apis : List String) (w : World) : Except PyError Answer :=
  let responses := get_responses_from_chatbots apis w.initial
  let scores := evaluate_responses w.eval1 responses
  match clarifyStep w.reask responses scores with
  | .error e => .error e
  | .ok clarifications =>
    let final_scores := evaluate_responses w.eval2
      (clarifications.map (fun p => (p.1, TaskResult.answer p.2)))
    select_best_response clarifications final_scores

/-- A run in which every initial answer task raises and gather captures
the exception: zero usable answers. -/
def allFailWorld : World where
  initial := fun _ => .taskExc
  eval1 := fun _ _ => .err
  reask := fun _ _ => .clientError
  eval2 := fun _ _ => .err

/-- Example scoring world for witnesses. -/
def wEx3 : String → String → EvalOutcome := fun _ _ => .ok "4"

/-- Example responses with a captured exception in the middle. -/
def respEx3 : List (String × TaskResult) :=
  [("A", .answer ⟨"alpha"⟩), ("B", .exc), ("C", .answer ⟨"gamma"⟩)]

/-- Example initial-round world: bot A succeeds, every other bot task
raises. -/
def world5 : String → RawOutcome :=
  fun b => if b = "A" then .completed (.ok ⟨"alpha"⟩) else .taskExc

/-- Example re-ask world echoing the question back as the answer. -/
def wc8 : String → String → SendOutcome := fun _ q => .ok ⟨q⟩

/-- Example responses for the clarification loop. -/
def resp8 : List (String × TaskResult) :=
  [("A", .answer ⟨"Try X."⟩), ("B", .answer ⟨"Use Y?"⟩)]

/-- Example first-round score table. -/
def scores8 : List (String × List (String × Nat)) :=
  [("A", [("B", 2)]), ("B", [("A", 4)])]

/-- The clarification map the loop produces on the example. -/
def cl8 : List (String × Answer) :=
  [("A", ⟨"Can you clarify the following: Use Y?"⟩),
   ("B", ⟨"Can you provide more details about: Try X."⟩)]

/-- Example candidates for selection. -/
def cl9 : List (String × Answer) := [("A", ⟨"ansA"⟩), ("B", ⟨"ansB"⟩)]

/-- Example final score table for selection. -/
def scores9 : List (String × List (String × Nat)) :=
  [("A", [("B", 2)]), ("B", [("A", 4)])]

/-- C4 counterexample: on a reply whose JSON body is malformed the
function does not return the sentinel answer; the json.JSONDecodeError
(a ValueError, not an aiohttp.ClientError) escapes to the caller, as
does the asyncio.TimeoutError of a session timeout. -/
theorem send_to_chatbot_malformed_propagates :
    send_to_chatbot SendOutcome.badJsonBody ≠ Except.ok ⟨"Error processing request."⟩ ∧
    send_to_chatbot SendOutcome.badJsonBody = Except.error PyError.valueError ∧
    send_to_chatbot SendOutcome.timeout = Except.error PyError.timeoutError :=
  ⟨fun h => Except.noConfusion h, rfl, rfl⟩

/-- C4 amended: send_to_chatbot returns the sentinel answer with text
"Error processing request." exactly for the failures raised as
aiohttp.ClientError (connection and transport errors, a non-success
status via raise_for_status, a wrong content type) and returns the reply
unchanged on success, logging only; but a malformed JSON body (whose
json.JSONDecodeError is a ValueError) and a session timeout (whose
asyncio.TimeoutError is likewise not an aiohttp.ClientError) escape the
except clause and propagate to the caller, where only the pool gather
records them as captured exceptions rather than answers. -/
theorem send_to_chatbot_spec :
    send_to_chatbot SendOutcome.clientError = .ok ⟨"Error processing request."⟩ ∧
    (∀ a, send_to_chatbot (SendOutcome.ok a) = .ok a) ∧
    send_to_chatbot SendOutcome.badJsonBody = .error PyError.valueError ∧
    send_to_chatbot SendOutcome.timeout = .error PyError.timeoutError ∧
    (∀ o a, send_to_chatbot o = .ok a →
      taskResult (RawOutcome.completed o) = TaskResult.answer a) ∧
    (∀ o e, send_to_chatbot o = .error e →
      taskResult (RawOutcome.completed o) = TaskResult.exc) := by
  refine ⟨rfl, fun _ => rfl, rfl, rfl, ?_, ?_⟩
  · intro o a h
    rw [taskResult, h, recordTask]
  · intro o e h
    rw [taskResult, h, recordTask]

/-- Witness for C4 amended: a completed call with a parsed reply is
recorded as that answer, and one with a malformed body is recorded as a
captured exception. -/
theorem send_to_chatbot_spec_witness :
    taskResult (RawOutcome.completed (SendOutcome.ok ⟨"hi"⟩)) = TaskResult.answer ⟨"hi"⟩ ∧
    taskResult (RawOutcome.completed SendOutcome.badJsonBody) = TaskResult.exc :=
  ⟨send_to_chatbot_spec.2.2.2.2.1 (SendOutcome.ok ⟨"hi"⟩) ⟨"hi"⟩ rfl,
   send_to_chatbot_spec.2.2.2.2.2 SendOutcome.badJsonBody PyError.valueError rfl⟩

/-- C10: the score table has a row for every key of the responses mapping
in order, including bots whose result was a captured exception, whose row
is empty. -/
theorem evaluate_responses_keys (w : String → String → EvalOutcome)
    (responses : List (String × TaskResult)) :
    (evaluate_responses w responses).map Prod.fst = responses.map Prod.fst ∧
    ∀ b, (b, TaskResult.exc) ∈ responses →
      (b, ([] : List (String × Nat))) ∈ evaluate_responses w responses := by
  constructor
  · rw [evaluate_responses, List.map_map]
    rfl
  · intro b hb
    exact List.mem_map_of_mem _ hb

/-- Witness for C10 on a concrete run with a captured exception. -/
theorem evaluate_responses_keys_witness :
    ("X", ([] : List (String × Nat))) ∈
      evaluate_responses (fun _ _ => EvalOutcome.err) [("X", TaskResult.exc)] :=
  (evaluate_responses_keys (fun _ _ => EvalOutcome.err) [("X", TaskResult.exc)]).2
    "X" (by decide)

/-- C1 (code bug evidence): on a score table in which bot BotA has an
empty row, select_best_response raises ZeroDivisionError instead of
surfacing a defined unscored condition. -/
theorem select_best_empty_row_div_error :
    select_best_response
      [("BotA", ⟨"alpha"⟩), ("BotB", ⟨"beta"⟩)]
      [("BotA", []), ("BotB", [("BotA", 4)])] = .error .zeroDivisionError := by
  rfl

/-- C2 (code bug evidence): when every configured bot fails in the initial
round with a captured exception, the orchestration raises ValueError from
min over an empty score row; no defined no-answer-available failure value
exists in the program. -/
theorem interact_all_bots_failed :
    interact_between_bots ["BotA", "BotB"] allFailWorld = .error .valueError := by
  rfl

/-- Helper: the question scan returns none when the text has no question
mark. -/
theorem firstQuestionAux_none :
    ∀ (l acc : List Char), (∀ c ∈ l, c ≠ '?') → firstQuestionAux acc l = none := by
  intro l
  induction l with
  | nil => intro acc _; rfl
  | cons c rest ih =>
    intro acc h
    have hc : ¬(c = '?') := h c (List.mem_cons_self c rest)
    rw [firstQuestionAux, if_neg hc]
    by_cases hd : c = '.' ∨ c = '!'
    · rw [if_pos hd]
      exact ih [] (fun d hd2 => h d (List.mem_cons_of_mem c hd2))
    · rw [if_neg hd]
      exact ih (c :: acc) (fun d hd2 => h d (List.mem_cons_of_mem c hd2))

/-- C7 counterexample: on the input text from the claim, the generated
question is not the string the claim asserts; the regex match keeps the
space following the sentence terminator, producing a double space. -/
theorem clarification_example_ne :
    generate_clarification_question ⟨"It works. Have you tried restarting?"⟩ ≠
      "Can you clarify the following: Have you tried restarting?" := by
  decide

/-- C7 amended: generate_clarification_question is a pure function of the
answer text; the input "It works. Have you tried restarting?" yields
"Can you clarify the following:  Have you tried restarting?" (the
extracted question keeps its leading space, so two spaces follow the
colon); and every input containing no question mark yields
"Can you provide more details about: " followed by the first 100
characters of the text. -/
theorem generate_clarification_spec :
    generate_clarification_question ⟨"It works. Have you tried restarting?"⟩ =
      "Can you clarify the following:  Have you tried restarting?" ∧
    ∀ a : Answer, (∀ c ∈ a.text.toList, c ≠ '?') →
      generate_clarification_question a =
        "Can you provide more details about: " ++ ⟨a.text.toList.take 100⟩ := by
  constructor
  · decide
  · intro a h
    rw [generate_clarification_question, firstQuestion, firstQuestionAux_none _ [] h]

/-- Witness for C7 amended on a concrete text without a question mark. -/
theorem generate_clarification_spec_witness :
    generate_clarification_question ⟨"Try X."⟩ =
      "Can you provide more details about: " ++ ⟨"Try X.".toList.take 100⟩ :=
  generate_clarification_spec.2 ⟨"Try X."⟩ (by decide)

/-- C5: the responder pool keeps exactly one entry per requested bot id, in
order; each entry is that bot's own task result, so the failure of any
subset of bots leaves the remaining entries present and unchanged. -/
theorem get_responses_spec (apis : List String) (world : String → RawOutcome)
    (_hne : apis ≠ []) (hnd : apis.Nodup) :
    (get_responses_from_chatbots apis world).map Prod.fst = apis ∧
    ((get_responses_from_chatbots apis world).map Prod.fst).Nodup ∧
    (∀ b ∈ apis, List.lookup b (get_responses_from_chatbots apis world) =
      some (taskResult (world b))) ∧
    (∀ (world2 : String → RawOutcome) (b : String), b ∈ apis → world b = world2 b →
      List.lookup b (get_responses_from_chatbots apis world) =
        List.lookup b (get_responses_from_chatbots apis world2)) := by
  have hmap : (get_responses_from_chatbots apis world).map Prod.fst = apis := by
    rw [get_responses_from_chatbots, List.map_map]
    have hc : (Prod.fst ∘ fun b => (b, taskResult (world b))) = id := funext (fun _ => rfl)
    rw [hc, List.map_id]
  have hlook : ∀ (w : String → RawOutcome) (b : String), b ∈ apis →
      List.lookup b (get_responses_from_chatbots apis w) = some (taskResult (w b)) := by
    intro w b hb
    exact List.lookup_graph (fun y => taskResult (w y)) hb
  refine ⟨hmap, ?_, hlook world, ?_⟩
  · rw [hmap]; exact hnd
  · intro world2 b hb heq
    rw [hlook world b hb, hlook world2 b hb, heq]

/-- Witness for C5: with bot A succeeding and bot B failing, the entry of A
is its real answer, present and unaffected. -/
theorem get_responses_spec_witness :
    List.lookup "A" (get_responses_from_chatbots ["A", "B"] world5) =
      some (taskResult (world5 "A")) :=
  (get_responses_spec ["A", "B"] world5 (by decide) (by decide)).2.2.1 "A" (by decide)

/-- C3: a score-table row never contains its own bot; an entry (b1,b2)
exists only when b1 and b2 are distinct and both of their answers
succeeded; a bot with a nonempty row succeeded itself; and conversely any
two distinct succeeded bots produce an entry, so the bots participating
in scoring are exactly the succeeded ones. -/
theorem evaluate_responses_pairs (w : String → String → EvalOutcome)
    (responses : List (String × TaskResult)) :
    (∀ b1 row, (b1, row) ∈ evaluate_responses w responses →
      (∀ v, (b1, v) ∉ row) ∧
      (∀ b2 v, (b2, v) ∈ row → b1 ≠ b2 ∧ ∃ a2, (b2, TaskResult.answer a2) ∈ responses) ∧
      (row ≠ [] → ∃ a1, (b1, TaskResult.answer a1) ∈ responses)) ∧
    (∀ b1 a1 b2 a2, (b1, TaskResult.answer a1) ∈ responses →
      (b2, TaskResult.answer a2) ∈ responses → b1 ≠ b2 →
      ∃ row, (b1, row) ∈ evaluate_responses w responses ∧
        (b2, evaluate_response (w b1 b2)) ∈ row) := by
  constructor
  · intro b1 row hmem
    simp only [evaluate_responses, List.mem_map] at hmem
    obtain ⟨p, hp, heq⟩ := hmem
    obtain ⟨pb, pr⟩ := p
    injection heq with hb hrow
    symm at hb
    subst hb
    cases pr with
    | exc =>
      refine ⟨?_, ?_, ?_⟩
      · intro v hv; rw [← hrow] at hv; cases hv
      · intro b2 v hv; rw [← hrow] at hv; cases hv
      · intro hne2; exact absurd hrow.symm hne2
    | answer a =>
      refine ⟨?_, ?_, ?_⟩
      · intro v hv
        rw [← hrow] at hv
        simp only [List.mem_map] at hv
        obtain ⟨q, hq, heq2⟩ := hv
        rw [List.mem_filter] at hq
        have hbne : (b1 != q.1) = true := by
          have := hq.2
          simp only [Bool.and_eq_true] at this
          exact this.1
        rw [bne_iff_ne] at hbne
        exact hbne (congrArg Prod.fst heq2).symm
      · intro b2 v hv
        rw [← hrow] at hv
        simp only [List.mem_map] at hv
        obtain ⟨q, hq, heq2⟩ := hv
        obtain ⟨qb, qr⟩ := q
        injection heq2 with h2b h2v
        subst h2b
        rw [List.mem_filter] at hq
        obtain ⟨hqmem, hpred⟩ := hq
        simp only [Bool.and_eq_true, bne_iff_ne] at hpred
        obtain ⟨hne2, hlive⟩ := hpred
        cases qr with
        | exc => exact absurd hlive (by simp [isLive])
        | answer a2 => exact ⟨hne2, a2, hqmem⟩
      · intro _; exact ⟨a, hp⟩
  · intro b1 a1 b2 a2 h1 h2 hne2
    refine ⟨(responses.filter (fun q => b1 != q.1 && isLive q.2)).map
        (fun q => (q.1, evaluate_response (w b1 q.1))), ?_, ?_⟩
    · simp only [evaluate_responses, List.mem_map]
      exact ⟨(b1, TaskResult.answer a1), h1, rfl⟩
    · simp only [List.mem_map]
      refine ⟨(b2, TaskResult.answer a2), ?_, rfl⟩
      rw [List.mem_filter]
      refine ⟨h2, ?_⟩
      simp [bne_iff_ne, isLive, hne2]

/-- Witness for C3: on a concrete run with an exception bot in the middle,
the two succeeded bots score each other. -/
theorem evaluate_responses_pairs_witness :
    ∃ row, ("A", row) ∈ evaluate_responses wEx3 respEx3 ∧
      ("C", evaluate_response (wEx3 "A" "C")) ∈ row :=
  (evaluate_responses_pairs wEx3 respEx3).2 "A" ⟨"alpha"⟩ "C" ⟨"gamma"⟩
    (by decide) (by decide) (by decide)

/-- Helper: the min walk returns an element of the list whose value is
minimal, and every element strictly before it has a strictly greater
value, so the first key of the minimal value wins. -/
theorem pyMinGo_splice (rest : List (String × Nat)) : ∀ (b : String) (v : Nat),
    ∃ l1 l2, (b, v) :: rest = l1 ++ pyMinGo b v rest :: l2 ∧
      (∀ p ∈ l1, (pyMinGo b v rest).2 < p.2) ∧
      (∀ p ∈ (b, v) :: rest, (pyMinGo b v rest).2 ≤ p.2) := by
  induction rest with
  | nil =>
    intro b v
    refine ⟨[], [], rfl, ?_, ?_⟩
    · intro p hp; cases hp
    · intro p hp
      rw [List.mem_singleton] at hp
      subst hp
      exact le_refl v
  | cons q0 rest ih =>
    intro b v
    obtain ⟨b0, v0⟩ := q0
    by_cases h : v0 < v
    · obtain ⟨l1, l2, hsp, hlt, hle⟩ := ih b0 v0
      have hgo : pyMinGo b v ((b0, v0) :: rest) = pyMinGo b0 v0 rest := by
        rw [pyMinGo, if_pos h]
      have hres : (pyMinGo b0 v0 rest).2 ≤ v0 :=
        hle (b0, v0) (List.mem_cons_self _ _)
      rw [hgo]
      refine ⟨(b, v) :: l1, l2, ?_, ?_, ?_⟩
      · rw [List.cons_append, ← hsp]
      · intro p hp
        rcases List.mem_cons.mp hp with h1 | h1
        · subst h1; exact lt_of_le_of_lt hres h
        · exact hlt p h1
      · intro p hp
        rcases List.mem_cons.mp hp with h1 | h1
        · subst h1; exact le_of_lt (lt_of_le_of_lt hres h)
        · exact hle p h1
    · obtain ⟨l1, l2, hsp, hlt, hle⟩ := ih b v
      have hgo : pyMinGo b v ((b0, v0) :: rest) = pyMinGo b v rest := by
        rw [pyMinGo, if_neg h]
      have hv0 : v ≤ v0 := Nat.le_of_not_lt h
      have hbv : (pyMinGo b v rest).2 ≤ v := hle (b, v) (List.mem_cons_self _ _)
      rw [hgo]
      cases l1 with
      | nil =>
        rw [List.nil_append] at hsp
        injection hsp with h1 h2
        refine ⟨[], (b0, v0) :: rest, ?_, ?_, ?_⟩
        · rw [List.nil_append, ← h1]
        · intro p hp; cases hp
        · intro p hp
          rcases List.mem_cons.mp hp with hq | hq
          · subst hq; rw [← h1]
          · rcases List.mem_cons.mp hq with hq2 | hq2
            · subst hq2; rw [← h1]; exact hv0
            · exact hle p (List.mem_cons_of_mem _ hq2)
      | cons x l1t =>
        rw [List.cons_append] at hsp
        injection hsp with h1 h2
        have hxlt : (pyMinGo b v rest).2 < v := by
          have := hlt x (List.mem_cons_self _ _)
          rw [← h1] at this
          exact this
        refine ⟨(b, v) :: (b0, v0) :: l1t, l2, ?_, ?_, ?_⟩
        · rw [List.cons_append, List.cons_append, ← h2]
        · intro p hp
          rcases List.mem_cons.mp hp with hq | hq
          · subst hq; exact hxlt
          · rcases List.mem_cons.mp hq with hq2 | hq2
            · subst hq2; exact lt_of_lt_of_le hxlt hv0
            · exact hlt p (List.mem_cons_of_mem _ hq2)
        · intro p hp
          rcases List.mem_cons.mp hp with hq | hq
          · subst hq; exact hbv
          · rcases List.mem_cons.mp hq with hq2 | hq2
            · subst hq2; exact le_trans hbv hv0
            · exact hle p (List.mem_cons_of_mem _ hq2)

/-- Helper: specification of pyMin on a nonempty row. -/
theorem pyMin_spec (row : List (String × Nat)) (pv : String × Nat)
    (h : pyMin row = some pv) :
    ∃ l1 l2, row = l1 ++ pv :: l2 ∧
      (∀ q ∈ l1, pv.2 < q.2) ∧ (∀ q ∈ row, pv.2 ≤ q.2) := by
  cases row with
  | nil => exact absurd h (by rw [pyMin]; simp)
  | cons q0 qrest =>
    obtain ⟨b0, v0⟩ := q0
    rw [pyMin] at h
    injection h with h
    obtain ⟨l1, l2, hsp, hlt, hle⟩ := pyMinGo_splice qrest b0 v0
    rw [h] at hsp hlt hle
    exact ⟨l1, l2, hsp, hlt, hle⟩

/-- Helper: pyMin never returns none on a nonempty row. -/
theorem pyMin_isSome (q : String × Nat) (rest : List (String × Nat)) :
    pyMin (q :: rest) = some (pyMinGo q.1 q.2 rest) := by
  rw [pyMin]

/-- Helper: the clarification loop keeps exactly the score-table keys, in
order. -/
theorem clarifyStep_keys (wc : String → String → SendOutcome)
    (responses : List (String × TaskResult)) :
    ∀ (scores : List (String × List (String × Nat))) (cl : List (String × Answer)),
      clarifyStep wc responses scores = .ok cl →
      cl.map Prod.fst = scores.map Prod.fst := by
  intro scores
  induction scores with
  | nil =>
    intro cl h
    rw [clarifyStep] at h
    injection h with h
    rw [← h]
    rfl
  | cons p rest ih =>
    intro cl h
    obtain ⟨bot, row⟩ := p
    rw [clarifyStep] at h
    split at h
    · exact absurd h (by simp)
    · split at h
      · exact absurd h (by simp)
      · split at h
        · exact absurd h (by simp)
        · split at h
          · exact absurd h (by simp)
          · split at h
            · exact absurd h (by simp)
            · rename_i cl2 hrec
              injection h with h
              rw [← h, List.map_cons, List.map_cons, ih cl2 hrec]

/-- Helper: for every bot of the score table, the clarification loop looks
up the worst-rated peer reply in responses, derives the clarification
question from it, re-asks the evaluating bot itself, and records the
successful reply under that bot. -/
theorem clarifyStep_mem (wc : String → String → SendOutcome)
    (responses : List (String × TaskResult)) :
    ∀ (scores : List (String × List (String × Nat))) (cl : List (String × Answer)),
      clarifyStep wc responses scores = .ok cl →
      ∀ B row, (B, row) ∈ scores →
        ∃ pv r a ans, pyMin row = some pv ∧
          List.lookup pv.1 responses = some r ∧ getAnswer r = .ok a ∧
          send_to_chatbot (wc B (generate_clarification_question a)) = .ok ans ∧
          (B, ans) ∈ cl := by
  intro scores
  induction scores with
  | nil => intro cl h B row hm; cases hm
  | cons p rest ih =>
    intro cl h B row hm
    obtain ⟨bot, prow⟩ := p
    rw [clarifyStep] at h
    split at h
    · exact absurd h (by simp)
    · rename_i pv0 hmin
      split at h
      · exact absurd h (by simp)
      · rename_i r0 hlk
        split at h
        · exact absurd h (by simp)
        · rename_i a0 hga
          split at h
          · exact absurd h (by simp)
          · rename_i ans0 hsend
            split at h
            · exact absurd h (by simp)
            · rename_i cl2 hrec
              injection h with h
              rcases List.mem_cons.mp hm with h1 | h1
              · injection h1 with hB hrow
                subst hB
                subst hrow
                exact ⟨pv0, r0, a0, ans0, hmin, hlk, hga, hsend,
                  by rw [← h]; exact List.mem_cons_self _ _⟩
              · obtain ⟨pv, r, a, ans, h4, h5, h6, h7, h8⟩ := ih cl2 hrec B row h1
                exact ⟨pv, r, a, ans, h4, h5, h6, h7,
                  by rw [← h]; exact List.mem_cons_of_mem _ h8⟩

/-- C8: when the clarification loop succeeds, the resulting clarification
map is keyed by exactly the bots of the first-round score table; and for
every bot B with row in the table, the loop finds the peer pv with the
first strictly-lowest score B gave, takes that peer reply from responses,
derives the clarification question from it, re-asks B itself with that
question, and records the reply under B. -/
theorem interact_clarifying_step (wc : String → String → SendOutcome)
    (responses : List (String × TaskResult))
    (scores : List (String × List (String × Nat)))
    (cl : List (String × Answer))
    (h : clarifyStep wc responses scores = .ok cl) :
    cl.map Prod.fst = scores.map Prod.fst ∧
    ∀ B row, (B, row) ∈ scores →
      ∃ pv r a ans l1 l2, pyMin row = some pv ∧
        row = l1 ++ pv :: l2 ∧ (∀ q ∈ l1, pv.2 < q.2) ∧ (∀ q ∈ row, pv.2 ≤ q.2) ∧
        List.lookup pv.1 responses = some r ∧ getAnswer r = .ok a ∧
        send_to_chatbot (wc B (generate_clarification_question a)) = .ok ans ∧
        (B, ans) ∈ cl := by
  refine ⟨clarifyStep_keys wc responses scores cl h, ?_⟩
  intro B row hm
  obtain ⟨pv, r, a, ans, h1, h2, h3, hs, h4⟩ :=
    clarifyStep_mem wc responses scores cl h B row hm
  obtain ⟨l1, l2, h5, h6, h7⟩ := pyMin_spec row pv h1
  exact ⟨pv, r, a, ans, l1, l2, h1, h5, h6, h7, h2, h3, hs, h4⟩

/-- Witness for C8 on a concrete clarification run. -/
theorem interact_clarifying_step_witness :
    cl8.map Prod.fst = scores8.map Prod.fst :=
  (interact_clarifying_step wc8 resp8 scores8 cl8 (by rfl)).1

/-- Helper: the max walk returns an element of the list whose value is
maximal, and every element strictly before it has a strictly smaller
value, so the first key of the greatest value wins. -/
theorem pyMaxGo_splice (rest : List (String × ℚ)) : ∀ (b : String) (v : ℚ),
    ∃ l1 l2, (b, v) :: rest = l1 ++ pyMaxGo b v rest :: l2 ∧
      (∀ p ∈ l1, p.2 < (pyMaxGo b v rest).2) ∧
      (∀ p ∈ (b, v) :: rest, p.2 ≤ (pyMaxGo b v rest).2) := by
  induction rest with
  | nil =>
    intro b v
    refine ⟨[], [], rfl, ?_, ?_⟩
    · intro p hp; cases hp
    · intro p hp
      rw [List.mem_singleton] at hp
      subst hp
      exact le_refl v
  | cons q0 rest ih =>
    intro b v
    obtain ⟨b0, v0⟩ := q0
    by_cases h : v < v0
    · obtain ⟨l1, l2, hsp, hlt, hle⟩ := ih b0 v0
      have hgo : pyMaxGo b v ((b0, v0) :: rest) = pyMaxGo b0 v0 rest := by
        rw [pyMaxGo, if_pos h]
      have hres : v0 ≤ (pyMaxGo b0 v0 rest).2 :=
        hle (b0, v0) (List.mem_cons_self _ _)
      rw [hgo]
      refine ⟨(b, v) :: l1, l2, ?_, ?_, ?_⟩
      · rw [List.cons_append, ← hsp]
      · intro p hp
        rcases List.mem_cons.mp hp with h1 | h1
        · subst h1; exact lt_of_lt_of_le h hres
        · exact hlt p h1
      · intro p hp
        rcases List.mem_cons.mp hp with h1 | h1
        · subst h1; exact le_of_lt (lt_of_lt_of_le h hres)
        · exact hle p h1
    · obtain ⟨l1, l2, hsp, hlt, hle⟩ := ih b v
      have hgo : pyMaxGo b v ((b0, v0) :: rest) = pyMaxGo b v rest := by
        rw [pyMaxGo, if_neg h]
      have hv0 : v0 ≤ v := le_of_not_lt h
      have hbv : v ≤ (pyMaxGo b v rest).2 := hle (b, v) (List.mem_cons_self _ _)
      rw [hgo]
      cases l1 with
      | nil =>
        rw [List.nil_append] at hsp
        injection hsp with h1 h2
        refine ⟨[], (b0, v0) :: rest, ?_, ?_, ?_⟩
        · rw [List.nil_append, ← h1]
        · intro p hp; cases hp
        · intro p hp
          rcases List.mem_cons.mp hp with hq | hq
          · subst hq; rw [← h1]
          · rcases List.mem_cons.mp hq with hq2 | hq2
            · subst hq2; rw [← h1]; exact hv0
            · exact hle p (List.mem_cons_of_mem _ hq2)
      | cons x l1t =>
        rw [List.cons_append] at hsp
        injection hsp with h1 h2
        have hxlt : v < (pyMaxGo b v rest).2 := by
          have := hlt x (List.mem_cons_self _ _)
          rw [← h1] at this
          exact this
        refine ⟨(b, v) :: (b0, v0) :: l1t, l2, ?_, ?_, ?_⟩
        · rw [List.cons_append, List.cons_append, ← h2]
        · intro p hp
          rcases List.mem_cons.mp hp with hq | hq
          · subst hq; exact hxlt
          · rcases List.mem_cons.mp hq with hq2 | hq2
            · subst hq2; exact lt_of_le_of_lt hv0 hxlt
            · exact hlt p (List.mem_cons_of_mem _ hq2)
        · intro p hp
          rcases List.mem_cons.mp hp with hq | hq
          · subst hq; exact hbv
          · rcases List.mem_cons.mp hq with hq2 | hq2
            · subst hq2; exact le_trans hv0 hbv
            · exact hle p (List.mem_cons_of_mem _ hq2)

/-- Helper: on a table whose rows are all nonempty, the average step
succeeds and returns exactly the list of arithmetic row means, keyed in
order. -/
theorem avgScores_ok (scores : List (String × List (String × Nat)))
    (h : ∀ p ∈ scores, p.2 ≠ []) :
    avgScores scores = .ok (scores.map (fun p =>
      (p.1, ((p.2.map (fun q => (q.2 : ℚ))).sum / (p.2.length : ℚ))))) := by
  induction scores with
  | nil => rfl
  | cons p rest ih =>
    obtain ⟨b, row⟩ := p
    have hrow : row ≠ [] := h (b, row) (List.mem_cons_self _ _)
    have hemp : row.isEmpty = false := by
      cases row with
      | nil => exact absurd rfl hrow
      | cons q qrest => rfl
    rw [avgScores, if_neg (by rw [hemp]; simp),
      ih (fun q hq => h q (List.mem_cons_of_mem _ hq)), List.map_cons]

/-- C9: on a candidates mapping and a score table whose scored bots each
have at least one peer entry, select_best_response computes the
arithmetic mean of every row, picks the first bot whose mean is maximal
(every earlier bot has a strictly smaller mean, every bot a mean at most
it), and returns exactly that bot's answer from the candidates. -/
theorem select_best_spec (cl : List (String × Answer))
    (scores : List (String × List (String × Nat)))
    (hne : scores ≠ [])
    (hrows : ∀ p ∈ scores, p.2 ≠ [])
    (hcl : ∀ b ∈ scores.map Prod.fst, (List.lookup b cl).isSome = true) :
    ∃ avg bv a l1 l2,
      avgScores scores = .ok avg ∧
      avg = scores.map (fun p =>
        (p.1, ((p.2.map (fun q => (q.2 : ℚ))).sum / (p.2.length : ℚ)))) ∧
      pyMax avg = some bv ∧
      avg = l1 ++ bv :: l2 ∧
      (∀ p ∈ l1, p.2 < bv.2) ∧ (∀ p ∈ avg, p.2 ≤ bv.2) ∧
      List.lookup bv.1 cl = some a ∧
      select_best_response cl scores = .ok a := by
  have havg := avgScores_ok scores hrows
  cases hs : scores with
  | nil => exact absurd hs hne
  | cons s0 srest =>
    subst hs
    rw [List.map_cons] at havg
    obtain ⟨l1, l2, hsp, hlt, hle⟩ :=
      pyMaxGo_splice (srest.map (fun p =>
        (p.1, ((p.2.map (fun q => (q.2 : ℚ))).sum / (p.2.length : ℚ)))))
        s0.1 ((s0.2.map (fun q => (q.2 : ℚ))).sum / (s0.2.length : ℚ))
    set m0 : String × ℚ :=
      (s0.1, ((s0.2.map (fun q => (q.2 : ℚ))).sum / (s0.2.length : ℚ))) with hm0
    set mrest : List (String × ℚ) :=
      srest.map (fun p => (p.1, ((p.2.map (fun q => (q.2 : ℚ))).sum / (p.2.length : ℚ))))
      with hmrest
    set bv : String × ℚ := pyMaxGo m0.1 m0.2 mrest with hbv
    have hmax : pyMax (m0 :: mrest) = some bv := by rw [pyMax]
    have hbvmem : bv ∈ m0 :: mrest := by
      rw [hsp]
      exact List.mem_append_right l1 (List.mem_cons_self _ _)
    have hkeys : (m0 :: mrest).map Prod.fst = ((s0 :: srest).map Prod.fst) := by
      rw [List.map_cons, List.map_cons, hmrest, List.map_map]
      rfl
    have hbv1 : bv.1 ∈ (s0 :: srest).map Prod.fst := by
      rw [← hkeys]
      exact List.mem_map_of_mem Prod.fst hbvmem
    obtain ⟨a, ha⟩ := Option.isSome_iff_exists.mp (hcl bv.1 hbv1)
    refine ⟨m0 :: mrest, bv, a, l1, l2, havg, rfl, hmax, hsp, hlt, hle, ha, ?_⟩
    simp only [select_best_response, havg, hmax, ha]

/-- Witness for C9 on a concrete selection run. -/
theorem select_best_spec_witness :
    ∃ avg bv a l1 l2,
      avgScores scores9 = .ok avg ∧
      avg = scores9.map (fun p =>
        (p.1, ((p.2.map (fun q => (q.2 : ℚ))).sum / (p.2.length : ℚ)))) ∧
      pyMax avg = some bv ∧
      avg = l1 ++ bv :: l2 ∧
      (∀ p ∈ l1, p.2 < bv.2) ∧ (∀ p ∈ avg, p.2 ≤ bv.2) ∧
      List.lookup bv.1 cl9 = some a ∧
      select_best_response cl9 scores9 = .ok a :=
  select_best_spec cl9 scores9 (by decide) (by decide) (by decide)
